import Mathlib

/-!
Shallow embedding of the `magicstring` Go package (huandu/go-magicstring).

The package attaches an arbitrary payload to a Go `string` by allocating a
hidden fixed-size header (`magicStringPayload`: an address-derived checksum
plus the payload) immediately before the string's data bytes (or, for an
empty string, exactly at the string's data pointer), and recovers it later
purely from the string's data pointer.

Modelling choices:
* A Go string is a pair of a raw data pointer and its byte content
  (`GoStr`).  Go never mutates string bytes, so the bytes live in the value;
  the pointer is the identity used by header resolution.
* The heap is a state `Mem`: a bump allocator position `next` plus the
  association list of genuine headers written by the attach routines, keyed
  by the header's address.  List order is newest-first and lookup takes the
  first match, like reading memory.
* Addresses are unbounded naturals (an idealized 64-bit address space that
  never wraps); the allocator hands out 8-aligned fresh addresses, mirroring
  the Go allocator on a 64-bit platform (`unsafe.Sizeof(uintptr(0)) = 8`).
* Reading the checksum word of memory that is not a genuine header is
  modelled as always failing the checksum comparison.  This abstracts the
  2^-64 coincidence the repository's own design notes flag as an open
  question (a foreign word could equal the address-derived checksum); the
  abstraction corresponds to the checksum scheme working as designed.
* The payload type `interface{}` is modelled as `Option Nat`: `none` is the
  nil interface (the "no payload" sentinel), `some n` an arbitrary non-nil
  payload value.
* `runtime.SetFinalizer` in `attachLargeString` has no memory-model
  counterpart; reclamation is outside this embedding.
-/

namespace MagicString

/-- The payload type: Go `interface\x7b\x7d`, with `none` for the nil interface. -/
abbrev Data := Option Nat

/-- Word size of the modelled 64-bit platform: `unsafe.Sizeof(uintptr(0))`. -/
def wordSize : Nat := 8

/-- Source `pointerMask = unsafe.Sizeof(uintptr(0)) - 1`, i.e. 7 on 64-bit. -/
def pointerMask : Nat := wordSize - 1

/-- The hidden header, source struct `magicStringPayload`:
a `uint64` checksum followed by the attached `interface\x7b\x7d` data. -/
structure magicStringPayload where
  checksum : Nat
  data : Data
deriving Repr, DecidableEq

/-- Source `sizeofPayload = unsafe.Sizeof(magicStringPayload\x7b\x7d)`:
8 bytes of checksum plus a 16-byte interface value on 64-bit. -/
def sizeofPayload : Nat := 24

/-- Source constant `checksumMask`. -/
def checksumMask : Nat := 0xcfb6b2da518bead

/-- Source `makeChecksum`: XOR of the address with the fixed mask. -/
def makeChecksum (ptr : Nat) : Nat := Nat.xor ptr checksumMask

/-- A Go string value: raw data pointer (a natural number address, 0 playing
the role of the nil pointer) plus byte content.  Copying a Go string copies
exactly this pair.  `bytes.length` is the string length. -/
structure GoStr where
  ptr : Nat
  bytes : List Nat
deriving Repr, DecidableEq

/-- The canonical empty string literal, with a nil data pointer (the source
comments note a zero-length ordinary string may carry a null pointer). -/
def emptyStr : GoStr := ⟨0, []⟩

/-- The heap state: bump-allocator position and the genuine headers written
by the attach routines, newest first, keyed by header address. -/
structure Mem where
  next : Nat
  headers : List (Nat × magicStringPayload)
deriving Repr, DecidableEq

/-- The initial heap: nothing allocated, first free address 8. -/
def mem0 : Mem := ⟨8, []⟩

/-- First-match lookup of a header by address, i.e. dereferencing the
candidate header pointer. -/
def lookupHeader : List (Nat × magicStringPayload) → Nat → Option magicStringPayload
  | [], _ => none
  | (a, h) :: rest, b => if b = a then some h else lookupHeader rest b

/-- Round a size up to the word size, the alignment the Go allocator
guarantees for every allocation on 64-bit. -/
def align8 (n : Nat) : Nat := (n + 7) / 8 * 8

/-- Clearing the low pointer bits, source expression `ptr &^ pointerMask`
with `pointerMask = 7`: round the address down to 8-byte alignment. -/
def maskPtr (p : Nat) : Nat := p / 8 * 8

/-- The first 61 size classes of the 64-bit Go runtime allocator, as the
source reads them from `runtime.MemStats\x7b\x7d.BySize` at init time.
Modelled from the spec: host allocator size-class catalogue (spec 4.1),
host data that is not part of this repository's sources. -/
def bySizeClasses : List Nat :=
  [0, 8, 16, 24, 32, 48, 64, 80, 96, 112, 128, 144, 160, 176, 192, 208,
   224, 240, 256, 288, 320, 352, 384, 416, 448, 480, 512, 576, 640, 704,
   768, 896, 1024, 1152, 1280, 1408, 1536, 1792, 2048, 2304, 2688, 3072,
   3200, 3456, 4096, 4864, 5376, 6144, 6528, 6784, 6912, 8192, 9472, 9728,
   10240, 10880, 12288, 13568, 14336, 16384, 18432]

/-- Source `holderWithSizeClasses`, built in `init()`: for each size class
larger than the header, the number of data bytes left after the header. -/
def holderWithSizeClasses : List Nat :=
  (bySizeClasses.filter (fun size => sizeofPayload < size)).map
    (fun size => size - sizeofPayload)

/-- Source `smallStringMax`: the largest usable data size of any size class,
i.e. the last element of the ascending `holderWithSizeClasses`. -/
def smallStringMax : Nat := holderWithSizeClasses.getLastD 0

/-- Source `sort.SearchInts` on an ascending list: the index of the first
element that is at least `x` (the list length if none is). -/
def searchInts (l : List Nat) (x : Nat) : Nat := l.findIdx (fun v => x ≤ v)

/-- The allocation size chosen by source `newPayload(size)`: the matching
usable size plus the header size, which is exactly the size class. -/
def newPayloadSize (size : Nat) : Nat :=
  holderWithSizeClasses.getD (searchInts holderWithSizeClasses size) 0 + sizeofPayload

/-- Source `attachEmptyString`: allocate a bare header, checksum derived
from the header's own address, and return a zero-length string whose
pointer is the header's address. -/
def attachEmptyString (m : Mem) (data : Data) : GoStr × Mem :=
  let a := m.next
  let h : magicStringPayload := ⟨makeChecksum a, data⟩
  (⟨a, []⟩, ⟨m.next + sizeofPayload, (a, h) :: m.headers⟩)

/-- Source `attachSmallString`: a combined header+data allocation of one
size class; the bytes are copied right after the header, the checksum is
derived from the first data byte's address, and the returned string points
at that first data byte. -/
def attachSmallString (m : Mem) (str : GoStr) (data : Data) : GoStr × Mem :=
  let sz := newPayloadSize str.bytes.length
  let a := m.next
  let dataAddr := a + sizeofPayload
  let h : magicStringPayload := ⟨makeChecksum dataAddr, data⟩
  (⟨dataAddr, str.bytes⟩, ⟨m.next + sz, (a, h) :: m.headers⟩)

/-- Source `attachLargeString`: a dedicated `len(str) + sizeofPayload` byte
allocation with the header at its start; the checksum is derived from the
data start address.  The registered finalizer is runtime reclamation and
has no counterpart in this memory model. -/
def attachLargeString (m : Mem) (str : GoStr) (data : Data) : GoStr × Mem :=
  let a := m.next
  let dataAddr := a + sizeofPayload
  let h : magicStringPayload := ⟨makeChecksum dataAddr, data⟩
  (⟨dataAddr, str.bytes⟩,
   ⟨m.next + align8 (str.bytes.length + sizeofPayload), (a, h) :: m.headers⟩)

/-- Source `Attach`: dispatch on the string length to the empty, small or
large allocation strategy. -/
def Attach (m : Mem) (str : GoStr) (data : Data) : GoStr × Mem :=
  let sz := str.bytes.length
  if sz = 0 then attachEmptyString m data
  else if sz ≤ smallStringMax then attachSmallString m str data
  else attachLargeString m str data

/-- Source `read`: mask the raw data pointer down to word alignment; a null
result means no header.  The candidate header address is the masked pointer
itself for a zero-length string, else the masked pointer minus the header
size.  The stored checksum word at the candidate address must equal the
checksum recomputed from the masked pointer; on success the result is the
header's address (the source returns the header pointer).  Memory that is
not a genuine header fails the comparison (see the module docstring). -/
def read (m : Mem) (str : GoStr) : Option Nat :=
  let data := maskPtr str.ptr
  if data = 0 then none
  else
    let checksum := makeChecksum data
    let addr := if str.bytes.length = 0 then data else data - sizeofPayload
    match lookupHeader m.headers addr with
    | none => none
    | some h => if h.checksum = checksum then some addr else none

/-- The payload stored in the header at address `a` (dereferencing
`payload.data`); `none` if no header is there. -/
def headerData (m : Mem) (a : Nat) : Data :=
  match lookupHeader m.headers a with
  | some h => h.data
  | none => none

/-- Source `Read`: the attached data, or the nil interface if none. -/
def Read (m : Mem) (str : GoStr) : Data :=
  match read m str with
  | none => none
  | some a => headerData m a

/-- Source `Is`: whether any data is attached to `str`. -/
def Is (m : Mem) (str : GoStr) : Bool :=
  (read m str).isSome

/-- Overwrite in place the `data` field of the header at address `a`,
keeping its checksum. -/
def setHeaderData (m : Mem) (a : Nat) (d : Data) : Mem :=
  ⟨m.next,
   m.headers.map (fun p => if p.1 = a then (p.1, ⟨p.2.checksum, d⟩) else p)⟩

/-- Source `Replace`: resolve the header; if none, report failure and touch
nothing; otherwise overwrite the header's data field in place. -/
def Replace (m : Mem) (str : GoStr) (data : Data) : Bool × Mem :=
  match read m str with
  | none => (false, m)
  | some a => (true, setHeaderData m a data)

/-- Source `Detach`: a zero-length string detaches to the empty literal; a
string without a header is returned as is with no allocation; otherwise the
bytes are copied into a fresh, header-free allocation. -/
def Detach (m : Mem) (str : GoStr) : GoStr × Mem :=
  if str.bytes.length = 0 then (emptyStr, m)
  else
    match read m str with
    | none => (str, m)
    | some _ =>
      (⟨m.next, str.bytes⟩, ⟨m.next + align8 str.bytes.length, m.headers⟩)

/-- Go string slicing `str[i:j]` for `i ≤ j ≤ len(str)`: the data pointer
advances by `i` and the bytes are the sub-range. -/
def substr (str : GoStr) (i j : Nat) : GoStr :=
  ⟨str.ptr + i, (str.bytes.drop i).take (j - i)⟩

/-- Source `Slice`: `none` models the panic on `begin > end` and the
out-of-range panic of the slice expression `str[begin:end]` itself.
Otherwise take the plain sub-range; if the original carries a payload,
re-attach the sub-range to that payload via `Attach`. -/
def Slice (m : Mem) (str : GoStr) (b e : Nat) : Option (GoStr × Mem) :=
  if e < b then none
  else if str.bytes.length < e then none
  else
    let payload := read m str
    let sliced := substr str b e
    match payload with
    | none => some (sliced, m)
    | some a => some (Attach m sliced (headerData m a))

/-- Allocation of a fresh ordinary (never-attached) buffer, modelling Go's
`make([]byte, n)` plus conversion to `string`: zero heap growth and the
canonical empty literal for length 0, otherwise a fresh header-free region. -/
def allocBytes (m : Mem) (bs : List Nat) : GoStr × Mem :=
  if bs.length = 0 then (emptyStr, m)
  else (⟨m.next, bs⟩, ⟨m.next + align8 bs.length, m.headers⟩)

/-- Well-formedness of a heap state: the bump pointer is 8-aligned and past
the null page; every genuine header sits at an 8-aligned address at least 8
and wholly below the bump pointer, and stores either the checksum of its own
address with nothing after the header (the empty-string strategy) or the
checksum of the data start `addr + sizeofPayload` with at least one data
byte after the header (the small and large strategies). -/
def WF (m : Mem) : Prop :=
  8 ≤ m.next ∧ m.next % 8 = 0 ∧
    ∀ p ∈ m.headers, 8 ≤ p.1 ∧ p.1 % 8 = 0 ∧
      ((p.2.checksum = makeChecksum p.1 ∧ p.1 + sizeofPayload ≤ m.next) ∨
       (p.2.checksum = makeChecksum (p.1 + sizeofPayload) ∧
         p.1 + sizeofPayload + 1 ≤ m.next))

instance (m : Mem) : Decidable (WF m) := by
  unfold WF
  infer_instance

/-! ### Arithmetic and catalogue facts -/

theorem makeChecksum_inj {a b : Nat} (h : makeChecksum a = makeChecksum b) : a = b :=
  Nat.xor_left_injective h

theorem align8_mod (n : Nat) : align8 n % 8 = 0 := by
  unfold align8
  exact Nat.mul_mod_left _ _

theorem le_align8 (n : Nat) : n ≤ align8 n := by
  unfold align8
  omega

theorem maskPtr_eq_self {p : Nat} (h : p % 8 = 0) : maskPtr p = p :=
  Nat.div_mul_cancel (Nat.dvd_of_mod_eq_zero h)

theorem holder_mem_mod : ∀ c ∈ holderWithSizeClasses, (c + sizeofPayload) % 8 = 0 := by
  decide

theorem smallStringMax_mem : smallStringMax ∈ holderWithSizeClasses := by
  decide

theorem getD_findIdx_le {l : List Nat} {x : Nat} (h : ∃ c ∈ l, x ≤ c) :
    l.getD (l.findIdx (fun v => x ≤ v)) 0 ∈ l ∧
      x ≤ l.getD (l.findIdx (fun v => x ≤ v)) 0 := by
  induction l with
  | nil => simp at h
  | cons a t ih =>
    by_cases hxa : x ≤ a
    · simp [List.findIdx_cons, hxa]
    · obtain ⟨c, hc, hxc⟩ := h
      rcases List.mem_cons.mp hc with rfl | hct
      · exact absurd hxc hxa
      · have ht := ih ⟨c, hct, hxc⟩
        have hidx : (a :: t).findIdx (fun v => x ≤ v) = t.findIdx (fun v => x ≤ v) + 1 := by
          simp [List.findIdx_cons, hxa]
        rw [hidx, List.getD_cons_succ]
        exact ⟨List.mem_cons_of_mem _ ht.1, ht.2⟩

theorem newPayloadSize_spec {sz : Nat} (h : sz ≤ smallStringMax) :
    newPayloadSize sz % 8 = 0 ∧ sz + sizeofPayload ≤ newPayloadSize sz := by
  have hex : ∃ c ∈ holderWithSizeClasses, sz ≤ c :=
    ⟨smallStringMax, smallStringMax_mem, h⟩
  have hg := getD_findIdx_le hex
  unfold newPayloadSize searchInts
  exact ⟨holder_mem_mod _ hg.1, by omega⟩

/-! ### Lookup lemmas -/

theorem lookupHeader_cons (a : Nat) (h : magicStringPayload)
    (rest : List (Nat × magicStringPayload)) (b : Nat) :
    lookupHeader ((a, h) :: rest) b = if b = a then some h else lookupHeader rest b := rfl

theorem lookupHeader_mem {l : List (Nat × magicStringPayload)} {b : Nat}
    {h : magicStringPayload} (hl : lookupHeader l b = some h) : (b, h) ∈ l := by
  induction l with
  | nil => simp [lookupHeader] at hl
  | cons p t ih =>
    obtain ⟨a, hh⟩ := p
    rw [lookupHeader_cons] at hl
    by_cases hba : b = a
    · subst hba
      simp at hl
      subst hl
      exact List.mem_cons_self _ _
    · simp [hba] at hl
      exact List.mem_cons_of_mem _ (ih hl)

/-! ### Structure of an Attach result -/

theorem attach_str (m : Mem) (s : GoStr) (d : Data) :
    (Attach m s d).1 =
      ⟨if s.bytes.length = 0 then m.next else m.next + sizeofPayload, s.bytes⟩ := by
  unfold Attach attachEmptyString attachSmallString attachLargeString
  by_cases h0 : s.bytes.length = 0
  · simp [h0, List.length_eq_zero.mp h0]
  · by_cases hsm : s.bytes.length ≤ smallStringMax <;> simp [h0, hsm]

theorem attach_headers (m : Mem) (s : GoStr) (d : Data) :
    (Attach m s d).2.headers =
      (m.next, ⟨makeChecksum (Attach m s d).1.ptr, d⟩) :: m.headers := by
  rw [attach_str]
  unfold Attach attachEmptyString attachSmallString attachLargeString
  by_cases h0 : s.bytes.length = 0
  · simp [h0]
  · by_cases hsm : s.bytes.length ≤ smallStringMax <;> simp [h0, hsm]

theorem attach_next_lb (m : Mem) (s : GoStr) (d : Data) :
    m.next + sizeofPayload ≤ (Attach m s d).2.next ∧
      (s.bytes.length ≠ 0 → m.next + sizeofPayload + 1 ≤ (Attach m s d).2.next) := by
  by_cases h0 : s.bytes.length = 0
  · simp [Attach, attachEmptyString, h0]
  · have h1 : 1 ≤ s.bytes.length := Nat.one_le_iff_ne_zero.mpr h0
    by_cases hsm : s.bytes.length ≤ smallStringMax
    · have hsp := (newPayloadSize_spec hsm).2
      simp only [Attach, attachSmallString, h0, hsm, if_false, if_true, ite_true,
        ite_false]
      constructor
      · omega
      · intro
        omega
    · have hal := le_align8 (s.bytes.length + sizeofPayload)
      simp only [Attach, attachLargeString, h0, hsm, if_false, ite_false]
      constructor
      · omega
      · intro
        omega

theorem attach_next_ge (m : Mem) (s : GoStr) (d : Data) :
    m.next ≤ (Attach m s d).2.next := by
  have := (attach_next_lb m s d).1
  omega

theorem attach_next_mod (m : Mem) (s : GoStr) (d : Data) (h : m.next % 8 = 0) :
    (Attach m s d).2.next % 8 = 0 := by
  have h24 : sizeofPayload = 24 := rfl
  by_cases h0 : s.bytes.length = 0
  · simp only [Attach, attachEmptyString, h0, ite_true]
    omega
  · by_cases hsm : s.bytes.length ≤ smallStringMax
    · have hsp := (newPayloadSize_spec hsm).1
      simp only [Attach, attachSmallString, h0, hsm, ite_false, ite_true]
      omega
    · have hal := align8_mod (s.bytes.length + sizeofPayload)
      simp only [Attach, attachLargeString, h0, hsm, ite_false]
      omega

theorem wf_attach {m : Mem} (hWF : WF m) (s : GoStr) (d : Data) :
    WF (Attach m s d).2 := by
  obtain ⟨h8, hmod, hhd⟩ := hWF
  have hlb := attach_next_lb m s d
  refine ⟨by have := hlb.1; omega, attach_next_mod m s d hmod, ?_⟩
  intro p hp
  rw [attach_headers] at hp
  rcases List.mem_cons.mp hp with rfl | hp
  · refine ⟨h8, hmod, ?_⟩
    rw [attach_str]
    by_cases h0 : s.bytes.length = 0
    · exact Or.inl ⟨by simp [h0], hlb.1⟩
    · exact Or.inr ⟨by simp [h0], hlb.2 h0⟩
  · obtain ⟨hp8, hpmod, hpcs⟩ := hhd p hp
    have := hlb.1
    refine ⟨hp8, hpmod, ?_⟩
    rcases hpcs with ⟨hcs, hbd⟩ | ⟨hcs, hbd⟩
    · exact Or.inl ⟨hcs, by omega⟩
    · exact Or.inr ⟨hcs, by omega⟩

theorem read_attach {m : Mem} (hWF : WF m) (s : GoStr) (d : Data) :
    read (Attach m s d).2 (Attach m s d).1 = some m.next := by
  obtain ⟨h8, hmod, -⟩ := hWF
  have h24 : sizeofPayload = 24 := rfl
  by_cases h0 : s.bytes.length = 0
  · have hmask : maskPtr m.next = m.next := maskPtr_eq_self hmod
    have hne : ¬ m.next = 0 := by omega
    simp [read, attach_headers, attach_str, h0, hmask, hne, lookupHeader_cons]
  · have hmod2 : (m.next + sizeofPayload) % 8 = 0 := by omega
    have hmask : maskPtr (m.next + sizeofPayload) = m.next + sizeofPayload :=
      maskPtr_eq_self hmod2
    have hne : ¬ m.next + sizeofPayload = 0 := by omega
    have hsub : m.next + sizeofPayload - sizeofPayload = m.next := by omega
    simp [read, attach_headers, attach_str, h0, hmask, hne, hsub, lookupHeader_cons]

theorem headerData_attach (m : Mem) (s : GoStr) (d : Data) :
    headerData (Attach m s d).2 m.next = d := by
  rw [headerData, attach_headers, lookupHeader_cons]
  simp

theorem Read_attach {m : Mem} (hWF : WF m) (s : GoStr) (d : Data) :
    Read (Attach m s d).2 (Attach m s d).1 = d := by
  unfold Read
  rw [read_attach hWF]
  exact headerData_attach m s d

theorem Is_attach {m : Mem} (hWF : WF m) (s : GoStr) (d : Data) :
    Is (Attach m s d).2 (Attach m s d).1 = true := by
  rw [Is, read_attach hWF]
  rfl

/-! ### Characterizing read -/

theorem read_some_iff (m : Mem) (s : GoStr) (a : Nat) :
    read m s = some a ↔
      (maskPtr s.ptr ≠ 0 ∧
       a = (if s.bytes.length = 0 then maskPtr s.ptr
            else maskPtr s.ptr - sizeofPayload) ∧
       ∃ h, lookupHeader m.headers a = some h ∧
         h.checksum = makeChecksum (maskPtr s.ptr)) := by
  constructor
  · intro hr
    simp only [read] at hr
    split at hr
    · exact absurd hr (by simp)
    · rename_i hz
      cases hlook : lookupHeader m.headers
          (if s.bytes.length = 0 then maskPtr s.ptr
           else maskPtr s.ptr - sizeofPayload) with
      | none =>
        rw [hlook] at hr
        simp at hr
      | some h =>
        rw [hlook] at hr
        by_cases hcs : h.checksum = makeChecksum (maskPtr s.ptr)
        · simp only [hcs, ite_true, if_true] at hr
          injection hr with hr
          subst hr
          exact ⟨hz, rfl, h, hlook, hcs⟩
        · simp [hcs] at hr
  · rintro ⟨hz, rfl, h, hl, hcs⟩
    simp only [read]
    rw [if_neg hz, hl]
    simp [hcs]

theorem read_congr {m1 m2 : Mem} (hh : m1.headers = m2.headers) {s t : GoStr}
    (hp : s.ptr = t.ptr) (hl : s.bytes.length = t.bytes.length) :
    read m1 s = read m2 t := by
  simp only [read, hh, hp, hl]

theorem read_ge_next {m : Mem} (hWF : WF m) {p : Nat} (hp : m.next ≤ p)
    (hpm : p % 8 = 0) (bs : List Nat) (hbs : ¬ bs.length = 0) :
    read m ⟨p, bs⟩ = none := by
  obtain ⟨h8, hmod, hhd⟩ := hWF
  have hmask : maskPtr p = p := maskPtr_eq_self hpm
  have hpz : ¬ p = 0 := by omega
  simp only [read, hmask, hbs, ite_false, if_false]
  rw [if_neg hpz]
  cases hl : lookupHeader m.headers (p - sizeofPayload) with
  | none => rfl
  | some h =>
    have hmem := lookupHeader_mem hl
    obtain ⟨hm8, hmmod, hmcs⟩ := hhd _ hmem
    have h24 : sizeofPayload = 24 := rfl
    rcases hmcs with ⟨hcs, hbd⟩ | ⟨hcs, hbd⟩
    · have hne : ¬ h.checksum = makeChecksum p := by
        rw [hcs]
        intro he
        have := makeChecksum_inj he
        omega
      simp [hne]
    · exfalso
      omega

/-! ### Mutation of the header data field -/

theorem lookupHeader_map_set (l : List (Nat × magicStringPayload)) (a : Nat)
    (d : Data) (b : Nat) :
    lookupHeader (l.map fun p => if p.1 = a then (p.1, ⟨p.2.checksum, d⟩) else p) b
      = (lookupHeader l b).map fun h =>
          if b = a then ⟨h.checksum, d⟩ else h := by
  induction l with
  | nil => rfl
  | cons q t ih =>
    obtain ⟨k, h⟩ := q
    by_cases hka : k = a
    · subst hka
      by_cases hbk : b = k
      · subst hbk
        simp [lookupHeader_cons]
      · simp [lookupHeader_cons, hbk, ih]
    · by_cases hbk : b = k
      · subst hbk
        simp [lookupHeader_cons, hka]
      · simp [lookupHeader_cons, hka, hbk, ih]

theorem read_setHeaderData (m : Mem) (a : Nat) (d : Data) (s : GoStr) :
    read (setHeaderData m a d) s = read m s := by
  simp only [read, setHeaderData, lookupHeader_map_set]
  set c := if s.bytes.length = 0 then maskPtr s.ptr
           else maskPtr s.ptr - sizeofPayload with hc
  cases hl : lookupHeader m.headers c with
  | none => simp [hl]
  | some h =>
    by_cases hca : c = a <;> simp [hl, hca]

theorem headerData_set_self {m : Mem} {a : Nat} (d : Data)
    (h : (lookupHeader m.headers a).isSome) :
    headerData (setHeaderData m a d) a = d := by
  simp only [headerData, setHeaderData, lookupHeader_map_set]
  cases hl : lookupHeader m.headers a with
  | none =>
    rw [hl] at h
    simp at h
  | some hh => simp [hl]

theorem headerData_set_ne {m : Mem} {a b : Nat} (d : Data) (h : ¬ b = a) :
    headerData (setHeaderData m a d) b = headerData m b := by
  simp only [headerData, setHeaderData, lookupHeader_map_set]
  cases hl : lookupHeader m.headers b with
  | none => simp [hl]
  | some hh => simp [hl, h]

theorem wf_setHeaderData {m : Mem} (hWF : WF m) (a : Nat) (d : Data) :
    WF (setHeaderData m a d) := by
  obtain ⟨h8, hmod, hhd⟩ := hWF
  refine ⟨h8, hmod, ?_⟩
  intro p hp
  simp only [setHeaderData, List.mem_map] at hp
  obtain ⟨q, hq, hfq⟩ := hp
  have hq2 := hhd q hq
  by_cases hqa : q.1 = a
  · rw [if_pos hqa] at hfq
    subst hfq
    simpa using hq2
  · rw [if_neg hqa] at hfq
    subst hfq
    exact hq2

theorem Replace_of_read_none {m : Mem} {s : GoStr} (h : read m s = none)
    (d : Data) : Replace m s d = (false, m) := by
  unfold Replace
  rw [h]

theorem Replace_of_read_some {m : Mem} {s : GoStr} {a : Nat}
    (h : read m s = some a) (d : Data) :
    Replace m s d = (true, setHeaderData m a d) := by
  unfold Replace
  rw [h]

/-! ### Detach and fresh ordinary allocations -/

theorem detach_bytes (m : Mem) (x : GoStr) : (Detach m x).1.bytes = x.bytes := by
  unfold Detach
  by_cases h0 : x.bytes.length = 0
  · simp [h0, emptyStr, List.length_eq_zero.mp h0]
  · cases hr : read m x <;> simp [h0, hr]

theorem detach_headers (m : Mem) (x : GoStr) :
    (Detach m x).2.headers = m.headers := by
  unfold Detach
  by_cases h0 : x.bytes.length = 0
  · simp [h0]
  · cases hr : read m x <;> simp [h0, hr]

theorem wf_detach {m : Mem} (hWF : WF m) (x : GoStr) : WF (Detach m x).2 := by
  obtain ⟨h8, hmod, hhd⟩ := hWF
  unfold Detach
  by_cases h0 : x.bytes.length = 0
  · simpa [h0] using ⟨h8, hmod, hhd⟩
  · cases hr : read m x with
    | none => simpa [h0, hr] using ⟨h8, hmod, hhd⟩
    | some a =>
      simp only [h0, hr, ite_false]
      have hm := align8_mod x.bytes.length
      have hle := le_align8 x.bytes.length
      refine ⟨?_, ?_, ?_⟩
      · show 8 ≤ m.next + align8 x.bytes.length
        omega
      · show (m.next + align8 x.bytes.length) % 8 = 0
        omega
      · intro p hp
        obtain ⟨hp8, hpmod, hpcs⟩ := hhd p hp
        refine ⟨hp8, hpmod, ?_⟩
        rcases hpcs with ⟨hcs, hbd⟩ | ⟨hcs, hbd⟩
        · refine Or.inl ⟨hcs, ?_⟩
          show p.1 + sizeofPayload ≤ m.next + align8 x.bytes.length
          omega
        · refine Or.inr ⟨hcs, ?_⟩
          show p.1 + sizeofPayload + 1 ≤ m.next + align8 x.bytes.length
          omega

theorem Is_detach {m : Mem} (hWF : WF m) (x : GoStr) :
    Is (Detach m x).2 (Detach m x).1 = false := by
  unfold Is
  by_cases h0 : x.bytes.length = 0
  · simp [Detach, h0, read, emptyStr, maskPtr]
  · cases hr : read m x with
    | none =>
      simp only [Detach, h0, hr, ite_false]
      simp [hr]
    | some a =>
      simp only [Detach, h0, hr, ite_false]
      have heq : read ⟨m.next + align8 x.bytes.length, m.headers⟩
          ⟨m.next, x.bytes⟩ = read m ⟨m.next, x.bytes⟩ :=
        read_congr rfl rfl rfl
      rw [heq, read_ge_next hWF (Nat.le_refl _) hWF.2.1 x.bytes h0]
      rfl

theorem read_allocBytes {m : Mem} (hWF : WF m) (bs : List Nat) :
    read (allocBytes m bs).2 (allocBytes m bs).1 = none := by
  unfold allocBytes
  by_cases h0 : bs.length = 0
  · simp [h0, read, emptyStr, maskPtr]
  · simp only [h0, ite_false]
    have heq : read ⟨m.next + align8 bs.length, m.headers⟩ ⟨m.next, bs⟩
        = read m ⟨m.next, bs⟩ := read_congr rfl rfl rfl
    rw [heq, read_ge_next hWF (Nat.le_refl _) hWF.2.1 bs h0]

/-! ### Attach does not disturb existing attachments -/

theorem read_attach_other {m : Mem} (hWF : WF m) {s0 : GoStr} {a0 : Nat}
    (h : read m s0 = some a0) (s : GoStr) (d : Data) :
    read (Attach m s d).2 s0 = some a0 ∧
      headerData (Attach m s d).2 a0 = headerData m a0 := by
  obtain ⟨hz, ha, hh, hl, hcs⟩ := (read_some_iff m s0 a0).mp h
  have hmem := lookupHeader_mem hl
  have hb := hWF.2.2 _ hmem
  have h24 : sizeofPayload = 24 := rfl
  have ha0 : ¬ a0 = m.next := by
    rcases hb.2.2 with ⟨_, hbd⟩ | ⟨_, hbd⟩ <;> omega
  constructor
  · apply (read_some_iff _ _ _).mpr
    refine ⟨hz, ha, hh, ?_, hcs⟩
    rw [attach_headers, lookupHeader_cons, if_neg ha0]
    exact hl
  · simp only [headerData]
    rw [attach_headers, lookupHeader_cons, if_neg ha0]

/-! ### Additional Detach helpers -/

theorem detach_of_len_zero {m : Mem} {x : GoStr} (h0 : x.bytes.length = 0) :
    Detach m x = (emptyStr, m) := by
  simp [Detach, h0]

theorem detach_of_read_none {m : Mem} {x : GoStr} (h0 : ¬ x.bytes.length = 0)
    (h : read m x = none) : Detach m x = (x, m) := by
  simp [Detach, h0, h]

theorem read_detach_any (m : Mem) (x : GoStr) (s : GoStr) :
    read (Detach m x).2 s = read m s :=
  read_congr (detach_headers m x) rfl rfl

theorem headerData_detach (m : Mem) (x : GoStr) (a : Nat) :
    headerData (Detach m x).2 a = headerData m a := by
  unfold headerData
  rw [detach_headers]

theorem Read_eq_headerData {m : Mem} {s : GoStr} {a : Nat}
    (h : read m s = some a) : Read m s = headerData m a := by
  unfold Read
  rw [h]

/-! ### Claim theorems -/

/-- C2: for every well-formed heap, every buffer `s` (including the empty
buffer and buffers on the small and large allocation paths) and every
payload `d`, `Read (Attach s d) = d`, and the buffer returned by `Attach`
is byte-for-byte identical to `s` with its length unchanged. -/
theorem c2_round_trip (m : Mem) (s : GoStr) (d : Data) (hWF : WF m) :
    Read (Attach m s d).2 (Attach m s d).1 = d ∧
      (Attach m s d).1.bytes = s.bytes ∧
      (Attach m s d).1.bytes.length = s.bytes.length := by
  refine ⟨Read_attach hWF s d, ?_, ?_⟩ <;> simp [attach_str]

/-- Witness for C2 at a concrete heap, buffer and payload. -/
theorem c2_round_trip_witness :
    Read (Attach mem0 ⟨0, [1, 2]⟩ (some 5)).2
        (Attach mem0 ⟨0, [1, 2]⟩ (some 5)).1 = some 5 ∧
      (Attach mem0 ⟨0, [1, 2]⟩ (some 5)).1.bytes = [1, 2] ∧
      (Attach mem0 ⟨0, [1, 2]⟩ (some 5)).1.bytes.length = 2 :=
  c2_round_trip mem0 ⟨0, [1, 2]⟩ (some 5) (by decide)

/-- C1 counterexample: attaching the nil (sentinel) payload does not behave
as Detach — the result still carries an attachment (`Is` is true),
contradicting the claimed `Is = false`, while Detach of the same input is
indeed unattached.  The repository's own TestAttachNilData asserts exactly
this: nil data is a kind of data. -/
theorem c1_counterexample :
    Is (Attach mem0 ⟨0, [9]⟩ none).2 (Attach mem0 ⟨0, [9]⟩ none).1 = true ∧
      Is (Detach mem0 ⟨0, [9]⟩).2 (Detach mem0 ⟨0, [9]⟩).1 = false := by
  decide

/-- C1 amended: Attach with the sentinel (nil) payload attaches nil like
any other payload: the result reads back the sentinel, but it carries an
attachment (`Is` is true) — it does not behave as Detach. -/
theorem c1_attach_nil_amended (m : Mem) (s : GoStr) (hWF : WF m) :
    Read (Attach m s none).2 (Attach m s none).1 = none ∧
      Is (Attach m s none).2 (Attach m s none).1 = true :=
  ⟨Read_attach hWF s none, Is_attach hWF s none⟩

/-- Witness for the amended C1 at a concrete heap and buffer. -/
theorem c1_attach_nil_amended_witness :
    Read (Attach mem0 ⟨0, [9]⟩ none).2 (Attach mem0 ⟨0, [9]⟩ none).1 = none ∧
      Is (Attach mem0 ⟨0, [9]⟩ none).2 (Attach mem0 ⟨0, [9]⟩ none).1 = true :=
  c1_attach_nil_amended mem0 ⟨0, [9]⟩ (by decide)

/-- C10: replacing the payload of an attached buffer with the sentinel (nil)
succeeds and does not remove the attachment: afterwards `Is` is still true
while `Read` returns the sentinel. -/
theorem c10_replace_nil (m : Mem) (s : GoStr) (d : Data) (hWF : WF m) :
    (Replace (Attach m s d).2 (Attach m s d).1 none).1 = true ∧
      Is (Replace (Attach m s d).2 (Attach m s d).1 none).2
        (Attach m s d).1 = true ∧
      Read (Replace (Attach m s d).2 (Attach m s d).1 none).2
        (Attach m s d).1 = none := by
  have hr := read_attach hWF s d
  rw [Replace_of_read_some hr none]
  refine ⟨rfl, ?_, ?_⟩
  · unfold Is
    rw [read_setHeaderData, hr]
    rfl
  · unfold Read
    rw [read_setHeaderData, hr]
    apply headerData_set_self
    rw [attach_headers, lookupHeader_cons]
    simp

/-- Witness for C10 at a concrete heap, buffer and payload. -/
theorem c10_replace_nil_witness :
    (Replace (Attach mem0 ⟨0, [7]⟩ (some 3)).2
        (Attach mem0 ⟨0, [7]⟩ (some 3)).1 none).1 = true ∧
      Is (Replace (Attach mem0 ⟨0, [7]⟩ (some 3)).2
          (Attach mem0 ⟨0, [7]⟩ (some 3)).1 none).2
        (Attach mem0 ⟨0, [7]⟩ (some 3)).1 = true ∧
      Read (Replace (Attach mem0 ⟨0, [7]⟩ (some 3)).2
          (Attach mem0 ⟨0, [7]⟩ (some 3)).1 none).2
        (Attach mem0 ⟨0, [7]⟩ (some 3)).1 = none :=
  c10_replace_nil mem0 ⟨0, [7]⟩ (some 3) (by decide)

/-- C6: Replace on a buffer without a resolvable header reports false and
changes nothing — the heap is returned untouched and the buffer remains
unattached; on a buffer with a resolvable header it returns true and
overwrites the stored payload in place, leaving the allocator position,
every other header's payload, and header resolution of every buffer
unchanged. -/
theorem c6_replace (m : Mem) (b : GoStr) (d : Data) :
    (read m b = none →
      Replace m b d = (false, m) ∧ Is m b = false) ∧
    (∀ a, read m b = some a →
      (Replace m b d).1 = true ∧
      (Replace m b d).2.next = m.next ∧
      headerData (Replace m b d).2 a = d ∧
      (∀ c, ¬ c = a → headerData (Replace m b d).2 c = headerData m c) ∧
      (∀ s2, read (Replace m b d).2 s2 = read m s2)) := by
  constructor
  · intro h
    refine ⟨Replace_of_read_none h d, ?_⟩
    unfold Is
    rw [h]
    rfl
  · intro a h
    obtain ⟨hz, ha, hh, hl, hcs⟩ := (read_some_iff m b a).mp h
    rw [Replace_of_read_some h d]
    refine ⟨rfl, rfl, ?_, ?_, ?_⟩
    · exact headerData_set_self d (by rw [hl]; rfl)
    · intro c hc
      exact headerData_set_ne d hc
    · intro s2
      exact read_setHeaderData m a d s2

/-- Witness for C6 at a concrete attached buffer: the header at address 8
gets the new payload and Replace reports success. -/
theorem c6_replace_witness :
    (Replace (Attach mem0 ⟨0, [7]⟩ (some 1)).2
        (Attach mem0 ⟨0, [7]⟩ (some 1)).1 (some 2)).1 = true ∧
      headerData (Replace (Attach mem0 ⟨0, [7]⟩ (some 1)).2
        (Attach mem0 ⟨0, [7]⟩ (some 1)).1 (some 2)).2 8 = some 2 := by
  have h := (c6_replace (Attach mem0 ⟨0, [7]⟩ (some 1)).2
    (Attach mem0 ⟨0, [7]⟩ (some 1)).1 (some 2)).2 8 (by decide)
  exact ⟨h.1, h.2.2.1⟩

/-- C7: slicing an attached buffer within bounds yields a buffer that is
attached to the same payload value (`Is` true, `Read` returns `d`); slicing
a buffer that carries no payload returns the plain sub-range with the heap
untouched. -/
theorem c7_slice (m : Mem) (hWF : WF m) :
    (∀ s d i j, i ≤ j → j ≤ s.bytes.length →
      ∃ s2 m2, Slice (Attach m s d).2 (Attach m s d).1 i j = some (s2, m2) ∧
        Is m2 s2 = true ∧ Read m2 s2 = d) ∧
    (∀ b i j, i ≤ j → j ≤ b.bytes.length → read m b = none →
      Slice m b i j = some (substr b i j, m)) := by
  constructor
  · intro s d i j hij hj
    have hWF2 : WF (Attach m s d).2 := wf_attach hWF s d
    have hr := read_attach hWF s d
    have hlen : (Attach m s d).1.bytes.length = s.bytes.length := by
      rw [attach_str]
    have hc1 : ¬ (j < i) := by omega
    have hc2 : ¬ ((Attach m s d).1.bytes.length < j) := by
      rw [hlen]
      omega
    have hslice : Slice (Attach m s d).2 (Attach m s d).1 i j
        = some (Attach (Attach m s d).2 (substr (Attach m s d).1 i j)
            (headerData (Attach m s d).2 m.next)) := by
      simp only [Slice, hr, hc1, hc2, ite_false]
    refine ⟨_, _, by rw [hslice], Is_attach hWF2 _ _, ?_⟩
    rw [Read_attach hWF2]
    exact headerData_attach m s d
  · intro b i j hij hj hr
    have hc1 : ¬ (j < i) := by omega
    have hc2 : ¬ (b.bytes.length < j) := by omega
    simp only [Slice, hr, hc1, hc2, ite_false]

/-- Witness for C7: slicing a concrete unattached buffer returns the plain
sub-range and the unchanged heap. -/
theorem c7_slice_witness :
    Slice mem0 ⟨0, [1, 2]⟩ 0 1 = some (substr ⟨0, [1, 2]⟩ 0 1, mem0) :=
  (c7_slice mem0 (by decide)).2 ⟨0, [1, 2]⟩ 0 1 (by decide) (by decide) rfl

/-- C8: Detach returns a byte-identical buffer that carries no attachment;
Detach is idempotent; on a buffer without attachment it performs no
allocation and returns the input unchanged (the very same value when
nonempty; the canonical empty literal, equal as a Go string, when empty);
and it never mutates its input — attachment state and payload of the
original buffer are unchanged in the post-state. -/
theorem c8_detach (m : Mem) (x : GoStr) (hWF : WF m) :
    (Detach m x).1.bytes = x.bytes ∧
    Is (Detach m x).2 (Detach m x).1 = false ∧
    (Detach (Detach m x).2 (Detach m x).1).1 = (Detach m x).1 ∧
    (Is m x = false →
      (Detach m x).2 = m ∧ (1 ≤ x.bytes.length → (Detach m x).1 = x)) ∧
    (Is (Detach m x).2 x = Is m x ∧ Read (Detach m x).2 x = Read m x) := by
  have hIs := Is_detach hWF x
  have hrd : read (Detach m x).2 (Detach m x).1 = none := by
    cases hc : read (Detach m x).2 (Detach m x).1 with
    | none => rfl
    | some a =>
      unfold Is at hIs
      rw [hc] at hIs
      simp at hIs
  refine ⟨detach_bytes m x, hIs, ?_, ?_, ?_⟩
  · by_cases h0 : x.bytes.length = 0
    · rw [detach_of_len_zero h0]
      rfl
    · have hy0 : ¬ (Detach m x).1.bytes.length = 0 := by
        rw [detach_bytes]
        exact h0
      rw [detach_of_read_none hy0 hrd]
  · intro hIsm
    have hrm : read m x = none := by
      cases hc : read m x with
      | none => rfl
      | some a =>
        unfold Is at hIsm
        rw [hc] at hIsm
        simp at hIsm
    by_cases h0 : x.bytes.length = 0
    · rw [detach_of_len_zero h0]
      exact ⟨rfl, by intro h1; omega⟩
    · rw [detach_of_read_none h0 hrm]
      exact ⟨rfl, fun _ => rfl⟩
  · constructor
    · unfold Is
      rw [read_detach_any]
    · unfold Read
      rw [read_detach_any]
      cases read m x with
      | none => rfl
      | some a => exact headerData_detach m x a

/-- Witness for C8 at a concrete attached buffer. -/
theorem c8_detach_witness :
    (Detach (Attach mem0 ⟨0, [7]⟩ (some 3)).2
        (Attach mem0 ⟨0, [7]⟩ (some 3)).1).1.bytes = [7] ∧
      Is (Detach (Attach mem0 ⟨0, [7]⟩ (some 3)).2
          (Attach mem0 ⟨0, [7]⟩ (some 3)).1).2
        (Detach (Attach mem0 ⟨0, [7]⟩ (some 3)).2
          (Attach mem0 ⟨0, [7]⟩ (some 3)).1).1 = false := by
  have h := c8_detach (Attach mem0 ⟨0, [7]⟩ (some 3)).2
    (Attach mem0 ⟨0, [7]⟩ (some 3)).1 (by decide)
  exact ⟨h.1, h.2.1⟩

/-- C3 counterexample: a buffer derived by Slice does not resolve to the
same header as the original — it carries a fresh header holding the payload
as of slice time.  Concretely: attach payload 1, slice, then replace the
original's payload with 2; the Slice-derived buffer still reads 1, not 2,
refuting the claimed visibility of Replace through Slice-derived buffers. -/
theorem c3_counterexample :
    (Slice (Attach mem0 ⟨0, [1, 2, 3]⟩ (some 1)).2
        (Attach mem0 ⟨0, [1, 2, 3]⟩ (some 1)).1 0 2).isSome = true ∧
    (Replace ((Slice (Attach mem0 ⟨0, [1, 2, 3]⟩ (some 1)).2
          (Attach mem0 ⟨0, [1, 2, 3]⟩ (some 1)).1 0 2).getD (emptyStr, mem0)).2
        (Attach mem0 ⟨0, [1, 2, 3]⟩ (some 1)).1 (some 2)).1 = true ∧
    Read (Replace ((Slice (Attach mem0 ⟨0, [1, 2, 3]⟩ (some 1)).2
          (Attach mem0 ⟨0, [1, 2, 3]⟩ (some 1)).1 0 2).getD (emptyStr, mem0)).2
        (Attach mem0 ⟨0, [1, 2, 3]⟩ (some 1)).1 (some 2)).2
      ((Slice (Attach mem0 ⟨0, [1, 2, 3]⟩ (some 1)).2
          (Attach mem0 ⟨0, [1, 2, 3]⟩ (some 1)).1 0 2).getD (emptyStr, mem0)).1
      = some 1 ∧
    ¬ Read (Replace ((Slice (Attach mem0 ⟨0, [1, 2, 3]⟩ (some 1)).2
          (Attach mem0 ⟨0, [1, 2, 3]⟩ (some 1)).1 0 2).getD (emptyStr, mem0)).2
        (Attach mem0 ⟨0, [1, 2, 3]⟩ (some 1)).1 (some 2)).2
      ((Slice (Attach mem0 ⟨0, [1, 2, 3]⟩ (some 1)).2
          (Attach mem0 ⟨0, [1, 2, 3]⟩ (some 1)).1 0 2).getD (emptyStr, mem0)).1
      = some 2 := by
  decide

/-- C3 amended: Replace mutates the header in place and the mutation is
visible through every buffer value that resolves to the same header — in
particular any plain copy (same pointer and length).  A buffer derived by
Slice, however, carries a fresh header copied at slice time, so a later
Replace on the original is not visible through it: it still reads the
payload from slice time. -/
theorem c3_replace_visibility_amended (m : Mem) (s : GoStr) (d1 d2 : Data)
    (hWF : WF m) :
    ((Replace (Attach m s d1).2 (Attach m s d1).1 d2).1 = true ∧
      ∀ b : GoStr, b.ptr = (Attach m s d1).1.ptr →
        b.bytes.length = (Attach m s d1).1.bytes.length →
        Read (Replace (Attach m s d1).2 (Attach m s d1).1 d2).2 b = d2) ∧
    (∀ i j, i ≤ j → j ≤ s.bytes.length →
      ∃ b m2, Slice (Attach m s d1).2 (Attach m s d1).1 i j = some (b, m2) ∧
        (Replace m2 (Attach m s d1).1 d2).1 = true ∧
        Read (Replace m2 (Attach m s d1).1 d2).2 b = d1) := by
  have hr := read_attach hWF s d1
  have hWF2 : WF (Attach m s d1).2 := wf_attach hWF s d1
  have hlookup : (lookupHeader (Attach m s d1).2.headers m.next).isSome := by
    rw [attach_headers, lookupHeader_cons]
    simp
  constructor
  · rw [Replace_of_read_some hr d2]
    refine ⟨rfl, ?_⟩
    intro b hbp hbl
    have hrb : read (Attach m s d1).2 b = some m.next := by
      rw [read_congr rfl hbp hbl]
      exact hr
    unfold Read
    rw [read_setHeaderData, hrb]
    exact headerData_set_self d2 hlookup
  · intro i j hij hj
    have hlen : (Attach m s d1).1.bytes.length = s.bytes.length := by
      rw [attach_str]
    have hc1 : ¬ (j < i) := by omega
    have hc2 : ¬ ((Attach m s d1).1.bytes.length < j) := by
      rw [hlen]
      omega
    have hslice : Slice (Attach m s d1).2 (Attach m s d1).1 i j
        = some (Attach (Attach m s d1).2 (substr (Attach m s d1).1 i j)
            (headerData (Attach m s d1).2 m.next)) := by
      simp only [Slice, hr, hc1, hc2, ite_false]
    have hro := read_attach_other hWF2 hr
      (substr (Attach m s d1).1 i j) (headerData (Attach m s d1).2 m.next)
    refine ⟨_, _, by rw [hslice], ?_, ?_⟩
    · rw [Replace_of_read_some hro.1 d2]
    · rw [Replace_of_read_some hro.1 d2]
      have hrb := read_attach hWF2 (substr (Attach m s d1).1 i j)
        (headerData (Attach m s d1).2 m.next)
      have hne : ¬ (Attach m s d1).2.next = m.next := by
        have := (attach_next_lb m s d1).1
        have h24 : sizeofPayload = 24 := rfl
        omega
      rw [Read_eq_headerData (by rw [read_setHeaderData]; exact hrb)]
      rw [headerData_set_ne d2 hne, headerData_attach]
      exact headerData_attach m s d1

/-- Witness for the amended C3: replacing through a plain copy of the
attached buffer is visible. -/
theorem c3_replace_visibility_amended_witness :
    Read (Replace (Attach mem0 ⟨0, [5]⟩ (some 1)).2
        (Attach mem0 ⟨0, [5]⟩ (some 1)).1 (some 2)).2
      (Attach mem0 ⟨0, [5]⟩ (some 1)).1 = some 2 :=
  (c3_replace_visibility_amended mem0 ⟨0, [5]⟩ (some 1) (some 2)
    (by decide)).1.2 (Attach mem0 ⟨0, [5]⟩ (some 1)).1 rfl rfl

/-- C4 counterexample: for the attached 3-byte buffer below, read succeeds
although the checksum stored at the candidate header address 8 is the
checksum of the data pointer 32, not of the candidate address 8 itself,
refuting the claimed "recomputed from that same candidate address"; and for
the unaligned interior pointer 33 (still length ≥ 1), read also finds the
header at 8, although the claim's candidate "raw data pointer minus header
size" is 33 - 24 = 9, where nothing is stored. -/
theorem c4_counterexample :
    read (Attach mem0 ⟨0, [1, 2, 3]⟩ (some 5)).2
        (Attach mem0 ⟨0, [1, 2, 3]⟩ (some 5)).1 = some 8 ∧
      lookupHeader (Attach mem0 ⟨0, [1, 2, 3]⟩ (some 5)).2.headers 8
        = some ⟨makeChecksum 32, some 5⟩ ∧
      ¬ makeChecksum 32 = makeChecksum 8 ∧
      read (Attach mem0 ⟨0, [1, 2, 3]⟩ (some 5)).2 ⟨33, [2, 3]⟩ = some 8 ∧
      lookupHeader (Attach mem0 ⟨0, [1, 2, 3]⟩ (some 5)).2.headers
        (33 - sizeofPayload) = none := by
  decide

/-- C4 amended: read first masks the raw data pointer down to word
alignment; a masked pointer of zero means no header.  The candidate header
address is the masked pointer itself when the length is 0, and the masked
pointer minus the header size when the length is ≥ 1; the header is
returned precisely when the checksum word stored at the candidate address
equals the checksum recomputed from the masked data pointer (not from the
candidate header address), and "no header" is returned otherwise. -/
theorem c4_read_candidate_amended (m : Mem) (s : GoStr) (a : Nat) :
    read m s = some a ↔
      (maskPtr s.ptr ≠ 0 ∧
       a = (if s.bytes.length = 0 then maskPtr s.ptr
            else maskPtr s.ptr - sizeofPayload) ∧
       ∃ h, lookupHeader m.headers a = some h ∧
         h.checksum = makeChecksum (maskPtr s.ptr)) :=
  read_some_iff m s a

/-- C5 counterexample: a plain prefix sub-range of an attached buffer — a
buffer value never itself produced by Attach — shares the attached data
pointer and therefore reads as attached, refuting the universal "never
attached implies Is false, Read sentinel". -/
theorem c5_counterexample :
    Is (Attach mem0 ⟨0, [1, 2, 3]⟩ (some 5)).2
        (substr (Attach mem0 ⟨0, [1, 2, 3]⟩ (some 5)).1 0 2) = true ∧
      ¬ substr (Attach mem0 ⟨0, [1, 2, 3]⟩ (some 5)).1 0 2
          = (Attach mem0 ⟨0, [1, 2, 3]⟩ (some 5)).1 ∧
      Read (Attach mem0 ⟨0, [1, 2, 3]⟩ (some 5)).2
        (substr (Attach mem0 ⟨0, [1, 2, 3]⟩ (some 5)).1 0 2) = some 5 := by
  decide

/-- C5 amended: every freshly allocated ordinary buffer — of any length,
including 0 and lengths beyond the small-buffer threshold — is silently
unattached: `Is` returns false and `Read` returns the sentinel; an absent
or mismatching header is a defined result, not an error.  (A buffer sharing
its data start with a live attached allocation, such as a plain prefix
sub-range of an attached buffer, is the exception: it resolves to that
header even though it never passed through Attach.) -/
theorem c5_foreign_safety_amended (m : Mem) (bs : List Nat) (hWF : WF m) :
    Is (allocBytes m bs).2 (allocBytes m bs).1 = false ∧
      Read (allocBytes m bs).2 (allocBytes m bs).1 = none := by
  have h := read_allocBytes hWF bs
  constructor
  · unfold Is
    rw [h]
    rfl
  · unfold Read
    rw [h]

/-- Witness for the amended C5 at a concrete heap and a 7-byte buffer. -/
theorem c5_foreign_safety_amended_witness :
    Is (allocBytes mem0 [1, 2, 3, 4, 5, 6, 7]).2
        (allocBytes mem0 [1, 2, 3, 4, 5, 6, 7]).1 = false ∧
      Read (allocBytes mem0 [1, 2, 3, 4, 5, 6, 7]).2
        (allocBytes mem0 [1, 2, 3, 4, 5, 6, 7]).1 = none :=
  c5_foreign_safety_amended mem0 [1, 2, 3, 4, 5, 6, 7] (by decide)

end MagicString
